import Mathlib

set_option maxRecDepth 10000

/-!
Shallow embedding of the core resolution logic of the wx-event-reliability
repository, covering

  * src/wx_event_reliability/sub_agents/tools/date_parse.py
  * src/wx_event_reliability/sub_agents/tools/variables.py
  * src/wx_event_reliability/sub_agents/tools/openmeteo.py

Calendar dates are modelled as proleptic-Gregorian ordinals (days since
0000-12-31, so 0001-01-01 is ordinal 1), exactly as in the Python
`datetime.date.toordinal` representation the source manipulates through
`timedelta` arithmetic.  Word-boundary regexes of the source are modelled at
whitespace-token level; plain Python substring tests (`x in q`) are modelled
as list-infix tests on the character data.  The external `dateparser`
library is an opaque collaborator and is passed in as a function argument.
-/

namespace WxER

/-- Python `datetime` leap-year rule (proleptic Gregorian). -/
def isLeap (y : Nat) : Bool :=
  (y % 4 == 0 && y % 100 != 0) || y % 400 == 0

/-- Number of days of month `m` (1-12) of year `y`. -/
def daysInMonth (y m : Nat) : Nat :=
  if m = 2 then (if isLeap y then 29 else 28)
  else if m = 4 ∨ m = 6 ∨ m = 9 ∨ m = 11 then 30
  else 31

/-- Days of year `y` that precede the first day of month `m`. -/
def daysBeforeMonth (y m : Nat) : Nat :=
  (List.range m).foldl (fun acc k => if 1 ≤ k then acc + daysInMonth y k else acc) 0

/-- Days that precede January 1 of year `y` (Gregorian leap count). -/
def daysBeforeYear (y : Nat) : Nat :=
  365 * (y - 1) + (y - 1) / 4 - (y - 1) / 100 + (y - 1) / 400

/-- `datetime.date(y, m, d).toordinal()`: 0001-01-01 is day 1. -/
def toOrdinal (y m d : Nat) : Nat :=
  daysBeforeYear y + daysBeforeMonth y m + d

/-- `date.weekday()`: Monday = 0 .. Sunday = 6.  Ordinal 1 is a Monday. -/
def weekday (n : Nat) : Nat :=
  (n + 6) % 7

/-- `_last_weekend` (date_parse.py lines 18-23): steps back from `ref - 1`
to the preceding Saturday.  Python computes `(prev.weekday() - 5) % 7`; for
a weekday `w` in `0..6` the Python modulus equals `(w + 2) % 7`, which is
the form used here to stay in `Nat`. -/
def lastWeekend (ref : Nat) : Nat × Nat :=
  let prev := ref - 1
  let saturday := prev - (weekday prev + 2) % 7
  (saturday, saturday + 1)

/-- `_this_weekend` (date_parse.py lines 25-29); `(5 - w) % 7` in Python is
`(12 - w) % 7` for `w` in `0..6`. -/
def thisWeekend (ref : Nat) : Nat × Nat :=
  let saturday := ref + (12 - weekday ref) % 7
  (saturday, saturday + 1)

/-- `_this_week` (date_parse.py lines 31-35). -/
def thisWeek (ref : Nat) : Nat × Nat :=
  let start := ref - weekday ref
  (start, start + 6)

/-- `_next_week` (date_parse.py lines 37-42). -/
def nextWeek (ref : Nat) : Nat × Nat :=
  let startThis := ref - weekday ref
  (startThis + 7, startThis + 13)

/-- `_clamp_window` (date_parse.py lines 44-48).  The source interpolates
the clamped bounds into the note text; every claim inspects only whether
the note is empty, and the fixed text is kept without the interpolation. -/
def clampWindow (s e maxDays : Nat) : Nat × Nat × String :=
  if e - s + 1 > maxDays then
    (s, s + (maxDays - 1), "Truncated long window to 31 days.")
  else
    (s, e, "")

/-- Contiguous-sublist test on character lists. -/
def listInfixOf (needle : List Char) : List Char → Bool
  | [] => needle.isEmpty
  | h :: t => List.isPrefixOf needle (h :: t) || listInfixOf needle t

/-- Python substring test `needle in hay`. -/
def occursIn (needle hay : String) : Bool :=
  listInfixOf needle.data hay.data

/-- ASCII lower-casing of one character (Python `str.lower` restricted to
the ASCII queries this code handles). -/
def charLower (c : Char) : Char :=
  if 65 ≤ c.toNat ∧ c.toNat ≤ 90 then Char.ofNat (c.toNat + 32) else c

/-- Python `str.lower`. -/
def strLower (s : String) : String :=
  String.mk (s.data.map charLower)

/-- Python whitespace as used by `str.strip` and the `\s` regex class. -/
def isWS (c : Char) : Bool :=
  c = ' ' ∨ c = '\t' ∨ c = '\n' ∨ c = '\r'

/-- Python `str.strip()`. -/
def trimWS (s : String) : String :=
  String.mk (((s.data.dropWhile isWS).reverse.dropWhile isWS).reverse)

/-- Splits into maximal whitespace-free tokens; `cur` is the reversed
current token. -/
def splitWSGo (cur : List Char) : List Char → List String
  | [] => if cur = [] then [] else [String.mk cur.reverse]
  | c :: rest =>
      if isWS c then
        if cur = [] then splitWSGo [] rest
        else String.mk cur.reverse :: splitWSGo [] rest
      else splitWSGo (c :: cur) rest

/-- Whitespace tokens of a query (models splitting at the `\b` and `\s+`
of the source regexes). -/
def tokensOf (q : String) : List String :=
  splitWSGo [] q.data

/-- Python `int()` on a digit string. -/
def natOfDigits (l : List Char) : Nat :=
  l.foldl (fun a c => a * 10 + (c.toNat - 48)) 0

/-- A token made of one or more digits (`\d+`). -/
def isDigits (t : String) : Bool :=
  t.data ≠ [] && t.data.all Char.isDigit

/-- A token made of exactly four digits (`\d{4}`). -/
def isYear4 (t : String) : Bool :=
  t.data.length = 4 && t.data.all Char.isDigit

/-- `_season_window` (date_parse.py lines 50-76).  The Python `lat` is a
float used only through the sign test `lat >= 0.0`; it is modelled as a
rational. -/
def seasonWindow (season : String) (yr : Nat) (lat : ℚ) : Nat × Nat :=
  let nh : Bool := decide (0 ≤ lat)
  let s := strLower season
  let s := if s = "fall" ∨ s = "autumn" then "autumn" else s
  let nhWin : Nat × Nat :=
    if s = "spring" then (toOrdinal yr 3 1, toOrdinal yr 5 31)
    else if s = "summer" then (toOrdinal yr 6 1, toOrdinal yr 8 31)
    else if s = "autumn" then (toOrdinal yr 9 1, toOrdinal yr 11 30)
    else (toOrdinal yr 12 1, toOrdinal (yr + 1) 2 28)
  if nh then nhWin
  else if s = "spring" then (toOrdinal yr 9 1, toOrdinal yr 11 30)
  else if s = "summer" then (toOrdinal yr 12 1, toOrdinal (yr + 1) 2 28)
  else if s = "autumn" then (toOrdinal yr 3 1, toOrdinal yr 5 31)
  else (toOrdinal yr 6 1, toOrdinal yr 8 31)

/-- Second half of the range regex: after the trigger word, a non-empty
group, then a `to`/`and`/`-` separator, then a non-empty tail. -/
def rangeSplitAfter : List String → List String → Option (List String × List String)
  | acc, sep :: rest =>
      if (sep = "to" ∨ sep = "and" ∨ sep = "-") ∧ acc ≠ [] ∧ rest ≠ [] then
        some (acc.reverse, rest)
      else rangeSplitAfter (acc ++ [sep]) rest
  | _, [] => none

/-- Guard of the explicit-range branch, regex
`\b(?:from|between)\s+(.+?)\s+(?:to|and|-)\s+(.+)` (date_parse.py line
102), modelled at token level: first `from`/`between` token, then the
lazily-smallest non-empty group before a `to`/`and`/`-` token. -/
def rangeMatch : List String → Option (List String × List String)
  | w :: rest =>
      if w = "from" ∨ w = "between" then rangeSplitAfter [] rest
      else rangeMatch rest
  | [] => none

/-- Regex `\bpast\s+(\d+)\s+day` (date_parse.py line 119) at token level. -/
def pastNDays : List String → Option Nat
  | p :: n :: d :: rest =>
      if p = "past" ∧ isDigits n ∧ List.isPrefixOf "day".data d.data then
        some (natOfDigits n.data)
      else pastNDays (n :: d :: rest)
  | _ => none

/-- Regex `(first|second|third|fourth)\s+week\s+of\s+([a-z]+)\s+(\d{4})`
(date_parse.py line 136) at token level; returns the week offset, the
month word and the year. -/
def weekOfMonthMatch : List String → Option (Nat × String × Nat)
  | a :: b :: c :: d :: e :: rest =>
      if (a = "first" ∨ a = "second" ∨ a = "third" ∨ a = "fourth") ∧
          b = "week" ∧ c = "of" ∧ d.data.all Char.isAlpha ∧ d ≠ "" ∧ isYear4 e then
        some ((if a = "first" then 0 else if a = "second" then 1
               else if a = "third" then 2 else 3),
              d, natOfDigits e.data)
      else weekOfMonthMatch (b :: c :: d :: e :: rest)
  | _ => none

/-- Regex `(spring|summer|autumn|fall|winter)\s+(\d{4})` (date_parse.py
line 145) at token level. -/
def seasonMatch : List String → Option (String × Nat)
  | a :: b :: rest =>
      if (a = "spring" ∨ a = "summer" ∨ a = "autumn" ∨ a = "fall" ∨ a = "winter") ∧
          isYear4 b then
        some (a, natOfDigits b.data)
      else seasonMatch (b :: rest)
  | _ => none

/-- Regex `monsoon\s+(\d{4})` (date_parse.py line 148) at token level. -/
def monsoonMatch : List String → Option Nat
  | a :: b :: rest =>
      if a = "monsoon" ∧ isYear4 b then some (natOfDigits b.data)
      else monsoonMatch (b :: rest)
  | _ => none

/-- One token of the `_TIME_HINT` regex (date_parse.py lines 10-13): a
`HH:MM` time, a `3am`-style time, or the words noon/midnight. -/
def isClockWord (a : String) : Bool :=
  (a = "noon" ∨ a = "midnight") ∨
  (a.data.any (· = ':') ∧ a.data.all (fun c => c.isDigit ∨ c = ':') ∧
    a.data.any Char.isDigit) ∨
  (a.data.dropLast.dropLast ≠ [] ∧ (a.data.dropLast.dropLast).all Char.isDigit ∧
    (List.isSuffixOf "am".data a.data ∨ List.isSuffixOf "pm".data a.data))

def hasClockToken : List String → Bool
  | a :: b :: rest =>
      isClockWord a ∨ (isDigits a ∧ (b = "am" ∨ b = "pm")) ∨
      hasClockToken (b :: rest)
  | [a] => isClockWord a
  | [] => false

def hasTimeHint (q : String) : Bool :=
  hasClockToken (tokensOf (strLower q))

/-- The raw window resolved by the rule cascade of `infer_time_window`
(date_parse.py lines 101-155), before the swap / clamp / classification
post-processing.  `dp` models the external `dateparser.parse` collaborator
composed with `_to_date` (returning an ordinal), `today` models
`datetime.utcnow().date()`. -/
def inferRaw (dp : String → Option Nat) (user_query : String) (lat : ℚ)
    (today : Nat) : Nat × Nat :=
  let q := strLower (trimWS user_query)
  let ws := tokensOf q
  match rangeMatch ws with
  | some (g1, g2) =>
      match dp (String.intercalate " " g1), dp (String.intercalate " " g2) with
      | some d1, some d2 => (min d1 d2, max d1 d2)
      | _, _ => (today, today)
  | none =>
    if occursIn "yesterday" q then (today - 1, today - 1)
    else if occursIn "tomorrow" q then (today + 1, today + 1)
    else match pastNDays ws with
    | some n => (today - (n - 1), today)
    | none =>
      if occursIn "last weekend" q then lastWeekend today
      else if occursIn "this weekend" q ∨ occursIn "coming weekend" q then
        thisWeekend today
      else if occursIn "this week" q then thisWeek today
      else if occursIn "next week" q then nextWeek today
      else match weekOfMonthMatch ws with
      | some (addWeeks, mon, yr) =>
          let base := (dp (mon ++ " 1 " ++ Nat.repr yr)).getD (toOrdinal yr 1 1)
          let s := base + addWeeks * 7
          (s, s + 6)
      | none => match seasonMatch ws with
        | some (sea, yr) => seasonWindow sea yr lat
        | none => match monsoonMatch ws with
          | some yr => (toOrdinal yr 6 1, toOrdinal yr 9 30)
          | none =>
              match dp user_query with
              | some d => (d, d)
              | none => (today, today)

/-- The resolved window returned by `infer_time_window`. -/
structure TimeWindow where
  start_date : Nat
  end_date : Nat
  granularity : String
  time_mode : String
  note : String
  deriving DecidableEq, Repr

/-- The post-processing of `infer_time_window` applied to the raw window
regardless of the matched rule (date_parse.py lines 157-178): swap when
inverted, clamp to 31 days, classify against today. -/
def postProcess (today s0 e0 : Nat) (granularity : String) : TimeWindow :=
  let s1 := if e0 < s0 then e0 else s0
  let e1 := if e0 < s0 then s0 else e0
  let r := clampWindow s1 e1 31
  let time_mode :=
    if r.2.1 < today then "hindcast"
    else if r.1 > today then "forecast"
    else "mixed"
  ⟨r.1, r.2.1, granularity, time_mode, r.2.2⟩

/-- `infer_time_window` (date_parse.py lines 79-191): rule cascade, clock
granularity detection on the raw query text, then post-processing. -/
def inferTimeWindow (dp : String → Option Nat) (user_query : String)
    (lat : ℚ) (today : Nat) : TimeWindow :=
  let raw := inferRaw dp user_query lat today
  let granularity := if hasTimeHint user_query then "hourly" else "daily"
  postProcess today raw.1 raw.2 granularity

/-! ## variables.py: the canonical-variable configuration table -/

/-- One entry of `VARIABLE_CONFIG` (variables.py lines 13-135).  The Python
key `default` is spelled `dflt` here. -/
structure VarCfg where
  hourly : List String
  daily : List String
  dflt : String
  synonyms : List String
  deriving DecidableEq, Repr

/-- `VARIABLE_CONFIG` (variables.py lines 13-135), as an ordered
association list (Python dicts preserve insertion order). -/
def variableConfig : List (String × VarCfg) :=
  [ ("precipitation",
      ⟨["precipitation"], ["precipitation_sum"], "daily",
        ["rain", "rainfall", "precip", "wet"]⟩),
    ("rain", ⟨["rain"], ["rain_sum"], "daily", []⟩),
    ("snowfall", ⟨["snowfall"], ["snowfall_sum"], "daily", ["snow"]⟩),
    ("precipitation_hours",
      ⟨[], ["precipitation_hours"], "daily", ["hours of rain"]⟩),
    ("temperature_2m",
      ⟨["temperature_2m"],
        ["temperature_2m_min", "temperature_2m_max", "temperature_2m_mean"],
        "hourly",
        ["temperature", "temp", "cooler", "hotter", "heat", "cold", "warm"]⟩),
    ("apparent_temperature",
      ⟨["apparent_temperature"],
        ["apparent_temperature_min", "apparent_temperature_max",
          "apparent_temperature_mean"],
        "hourly", ["feels like", "feels-like"]⟩),
    ("relative_humidity_2m",
      ⟨["relative_humidity_2m"], ["relative_humidity_2m_mean"], "hourly",
        ["humidity", "humid"]⟩),
    ("dew_point_2m", ⟨["dew_point_2m"], [], "hourly", ["dew point"]⟩),
    ("cloud_cover",
      ⟨["cloud_cover"], ["cloud_cover_mean"], "hourly",
        ["cloudy", "overcast", "clear", "cloud cover"]⟩),
    ("uv_index",
      ⟨[], ["uv_index_max", "uv_index_clear_sky_max"], "daily",
        ["uv", "uv index", "sunburn"]⟩),
    ("sunrise_sunset",
      ⟨[], ["sunrise", "sunset"], "daily", ["sunrise", "sunset"]⟩),
    ("shortwave_radiation",
      ⟨["shortwave_radiation"], ["shortwave_radiation_sum"], "hourly",
        ["solar radiation", "irradiance"]⟩),
    ("wind_speed_10m",
      ⟨["wind_speed_10m"], ["wind_speed_10m_max", "wind_gusts_10m_max"],
        "hourly", ["wind", "wind speed", "breeze"]⟩),
    ("wind_direction_10m",
      ⟨["wind_direction_10m"], [], "hourly", ["wind direction"]⟩),
    ("wind_gusts_10m",
      ⟨["wind_gusts_10m"], ["wind_gusts_10m_max"], "hourly",
        ["wind gust", "gusts"]⟩),
    ("pressure_msl",
      ⟨["pressure_msl"], [], "hourly", ["pressure", "sea level pressure"]⟩),
    ("surface_pressure", ⟨["surface_pressure"], [], "hourly", []⟩),
    ("visibility", ⟨["visibility"], [], "hourly", ["fog", "haze", "visibility"]⟩),
    ("weather_code",
      ⟨["weather_code"], [], "hourly", ["weather code", "conditions"]⟩),
    ("et0", ⟨[], ["et0_fao_evapotranspiration"], "daily", ["evapotranspiration"]⟩) ]

/-- `VARIABLE_CONFIG.get(v)`. -/
def configGet (v : String) : Option VarCfg :=
  (variableConfig.find? (fun p => p.1 == v)).map (·.2)

/-- `VARIABLE_CONFIG.get(v, {}).get("daily", [])`. -/
def dailyOf (v : String) : List String :=
  ((configGet v).map (·.daily)).getD []

/-- `VARIABLE_CONFIG.get(v, {}).get("hourly", [])`. -/
def hourlyOf (v : String) : List String :=
  ((configGet v).map (·.hourly)).getD []

/-! ## openmeteo.py: cadence mapping, routing and merging -/

/-- `_pick_granularity` (openmeteo.py lines 28-36). -/
def pickGranularity (requested timeHint : String) : String :=
  if requested = "daily" ∨ requested = "hourly" ∨ requested = "minutely_15" ∨
      requested = "current" then requested
  else if timeHint = "quarter_hour" then "minutely_15"
  else if timeHint = "clock" then "hourly"
  else "daily"

/-- `_clamp_forecast_range` (openmeteo.py lines 38-41) with
`_FORECAST_MAX_DAYS = 16`. -/
def clampForecastRange (s e today : Nat) : Nat × Nat :=
  if e > today + 16 then (s, today + 16) else (s, e)

/-- Warning emitted by the daily-to-hourly cadence fallback (openmeteo.py
line 58; the quotes around the variable name are dropped). -/
def dailyFallbackWarn (v : String) : String :=
  "No daily aggregate for " ++ v ++ ". Falling back to hourly."

/-- Warning emitted by the hourly-to-daily cadence fallback (openmeteo.py
line 66). -/
def hourlyFallbackWarn (v : String) : String :=
  "No hourly variable for " ++ v ++ ". Using daily aggregate."

/-- Warning of the safe-default branch (openmeteo.py line 85). -/
def defaultVarsWarn : String :=
  "No variables recognized; defaulting to hourly temperature_2m."

/-- One iteration of the loop body of `_map_vars` (openmeteo.py lines
49-71): given the current `api_key` and the variable, the new `api_key`,
the field names appended to `out` (`params or [v]`) and the warnings
appended. -/
def stepVar (apiKey v : String) : String × List String × List String :=
  if apiKey = "daily" then
    if dailyOf v = [] then
      let params := hourlyOf v
      ("hourly", (if params = [] then [v] else params),
        (if params = [] then [] else [dailyFallbackWarn v]))
    else ("daily", dailyOf v, [])
  else if apiKey = "hourly" then
    if hourlyOf v = [] ∧ dailyOf v ≠ [] then
      ("daily", dailyOf v, [hourlyFallbackWarn v])
    else (apiKey, (if hourlyOf v = [] then [v] else hourlyOf v), [])
  else
    let params := if hourlyOf v ≠ [] then hourlyOf v else dailyOf v
    (apiKey, (if params = [] then [v] else params), [])

/-- The whole loop of `_map_vars`: threads `api_key` through the variables,
accumulating `out` and `warnings`. -/
def mapVarsGo (apiKey : String) : List String → String × List String × List String
  | [] => (apiKey, [], [])
  | v :: rest =>
      let st := stepVar apiKey v
      let r := mapVarsGo st.1 rest
      (r.1, st.2.1 ++ r.2.1, st.2.2 ++ r.2.2)

/-- Order-preserving deduplication (openmeteo.py lines 73-79), with the
set of already-seen names as accumulator. -/
def dedupSeen (seen : List String) : List String → List String
  | [] => []
  | p :: rest =>
      if p ∈ seen then dedupSeen seen rest
      else p :: dedupSeen (p :: seen) rest

def dedupKeepFirst (l : List String) : List String :=
  dedupSeen [] l

/-- `_map_vars` (openmeteo.py lines 43-87): initial `api_key` selection,
the per-variable loop, deduplication and the safe-default branch. -/
def mapVars (canonical : List String) (granularity : String) :
    String × List String × List String :=
  let apiKey0 :=
    if granularity = "hourly" ∨ granularity = "daily" ∨
        granularity = "minutely_15" ∨ granularity = "current"
    then granularity else "daily"
  let r := mapVarsGo apiKey0 canonical
  let deduped := dedupKeepFirst r.2.1
  if deduped = [] then
    ("hourly", ["temperature_2m"], r.2.2 ++ [defaultVarsWarn])
  else (r.1, deduped, r.2.2)

/-- One upstream request issued by `fetch_openmeteo`: the endpoint
(`archive` or `forecast`) and the date range passed to `_call`. -/
structure Call where
  endpoint : String
  start_date : Nat
  end_date : Nat
  deriving DecidableEq, Repr

/-- The days a call covers, as the list `start .. end`. -/
def callDays (c : Call) : List Nat :=
  List.range' c.start_date (c.end_date + 1 - c.start_date)

/-- The forecast-endpoint request constructed by `_call` (openmeteo.py
lines 140-144): the range is first clamped to the forward horizon. -/
def mkForecastCall (s e today : Nat) : Call :=
  let r := clampForecastRange s e today
  ⟨"forecast", r.1, r.2⟩

/-- The calls issued by `fetch_openmeteo` (openmeteo.py lines 129-196):
time-mode inference when the caller did not force one, then the
hindcast / forecast / mixed routing, with the forecast horizon clamp
applied inside `_call` for forecast-endpoint requests. -/
def planCalls (today s e : Nat) (time_mode : String) : List Call :=
  let tm :=
    if time_mode = "" then
      if e < today then "hindcast"
      else if s > today then "forecast"
      else "mixed"
    else time_mode
  if tm = "hindcast" then [⟨"archive", s, e⟩]
  else if tm = "forecast" then [mkForecastCall s e today]
  else
    (if s < today then [⟨"archive", s, min e (today - 1)⟩] else []) ++
    (if e ≥ today then [mkForecastCall (max today s) e today] else [])

/-- The pure part of the payload assembled by `fetch_openmeteo`: the calls
issued, the effective cadence (`api_key`), the mapped field names and the
accumulated warnings.  Network transport, the coordinate guard and the
returned raw series are the external collaborator surface. -/
structure FetchPlan where
  calls : List Call
  granularity : String
  fields : List String
  warnings : List String
  deriving DecidableEq, Repr

/-- `fetch_openmeteo` (openmeteo.py lines 105-221) restricted to its pure
plan: granularity pick, variable mapping and routing.  The `warnings` key
of the response holds exactly `var_warnings` (line 219-220). -/
def fetchPlan (today s e : Nat) (vars : List String)
    (granularity time_mode timeHint : String) : FetchPlan :=
  let picked := pickGranularity granularity timeHint
  let m := mapVars vars picked
  ⟨planCalls today s e time_mode, m.1, m.2.1, m.2.2⟩

/-- Python `dict.update` on string-to-string association lists with unique
keys (insertion order preserved, existing keys overwritten in place, new
keys appended). -/
def dictUpdate (base upd : List (String × String)) : List (String × String) :=
  base.map (fun p => (p.1, ((List.lookup p.1 upd).getD p.2))) ++
    upd.filter (fun p => (List.lookup p.1 base).isNone)

/-- The unit merging of the mixed branch of `fetch_openmeteo` (lines
166, 188, 194): `units = {}`, then `units.update(a_units)`, then
`units.update(b_units)`. -/
def mergedUnits (aUnits bUnits : List (String × String)) :
    List (String × String) :=
  dictUpdate (dictUpdate [] aUnits) bUnits

/-! ## variables.py: pick_variables -/

/-- The synonym test of the matching loop (variables.py lines 188-190):
some synonym occurs in the query, or the canonical name itself does. -/
def entryMatches (q : String) (p : String × VarCfg) : Bool :=
  p.2.synonyms.any (fun syn => occursIn syn q) || occursIn p.1 q

/-- The canonical variables collected by the matching loop of
`pick_variables`, in configuration order. -/
def matchedVars (q : String) : List String :=
  (variableConfig.filter (entryMatches q)).map (·.1)

/-- The `variables` component of the `pick_variables` result (variables.py
lines 183-203, 236): synonym matching, the coarse fallback cues, and the
final `temperature_2m` default, deduplicated preserving order. -/
def pickVariablesVars (user_query : String) : List String :=
  let q := strLower user_query
  let picked := matchedVars q
  let picked :=
    if picked = [] then
      if occursIn "rain" q ∨ occursIn "precip" q then ["precipitation"]
      else if occursIn "humidity" q then ["relative_humidity_2m"]
      else if occursIn "uv" q ∨ occursIn "sunburn" q then ["uv_index"]
      else if occursIn "wind" q then ["wind_speed_10m", "wind_gusts_10m"]
      else ["temperature_2m"]
    else picked
  dedupKeepFirst picked

/-- The keys of the dict returned by `pick_variables` (variables.py lines
235-242). -/
def pickVariablesResultKeys : List String :=
  ["variables", "granularity", "time_hint", "stat_intent", "endpoint_hint",
    "few_shot_examples"]

/-- The fixed northern-hemisphere meteorological season windows as the
spec states them (spring=Mar1-May31, summer=Jun1-Aug31, autumn=Sep1-Nov30,
winter=Dec1-Feb28 of the following year); spec-side table used to compare
against `seasonWindow`. -/
def nhSeasonWindow (sea : String) (yr : Nat) : Nat × Nat :=
  if sea = "spring" then (toOrdinal yr 3 1, toOrdinal yr 5 31)
  else if sea = "summer" then (toOrdinal yr 6 1, toOrdinal yr 8 31)
  else if sea = "autumn" ∨ sea = "fall" then (toOrdinal yr 9 1, toOrdinal yr 11 30)
  else (toOrdinal yr 12 1, toOrdinal (yr + 1) 2 28)

/-- The season lying exactly six months away. -/
def oppositeSeason (sea : String) : String :=
  if sea = "spring" then "autumn"
  else if sea = "summer" then "winter"
  else if sea = "autumn" ∨ sea = "fall" then "spring"
  else "summer"

/-! ## Helper lemmas -/

theorem postProcess_start (today s0 e0 : Nat) (g : String) :
    (postProcess today s0 e0 g).start_date = min s0 e0 := by
  unfold postProcess clampWindow
  dsimp only
  split_ifs <;> dsimp only <;> omega

theorem postProcess_end (today s0 e0 : Nat) (g : String) :
    (postProcess today s0 e0 g).end_date = min (max s0 e0) (min s0 e0 + 30) := by
  unfold postProcess clampWindow
  dsimp only
  split_ifs <;> dsimp only <;> omega

theorem postProcess_note (today s0 e0 : Nat) (g : String) :
    (postProcess today s0 e0 g).note =
      if 31 < max s0 e0 - min s0 e0 + 1 then "Truncated long window to 31 days."
      else "" := by
  unfold postProcess clampWindow
  dsimp only
  split_ifs <;> first | rfl | (exfalso; omega)

/-! ## Claim theorems -/

/-- Claim C1: every window returned by `infer_time_window` satisfies
`start_date ≤ end_date` and a span of at most 31 days; the start date is
the (swap-normalised) raw start, when the raw span exceeds 31 days the end
date is pulled inward, and the truncation note is present exactly when
this clamping occurred. -/
theorem infer_time_window_window_invariants (dp : String → Option Nat)
    (q : String) (lat : ℚ) (today : Nat) :
    (inferTimeWindow dp q lat today).start_date ≤
      (inferTimeWindow dp q lat today).end_date ∧
    (inferTimeWindow dp q lat today).end_date + 1 ≤
      (inferTimeWindow dp q lat today).start_date + 31 ∧
    (inferTimeWindow dp q lat today).start_date =
      min (inferRaw dp q lat today).1 (inferRaw dp q lat today).2 ∧
    ((inferTimeWindow dp q lat today).note ≠ "" ↔
      max (inferRaw dp q lat today).1 (inferRaw dp q lat today).2 -
        min (inferRaw dp q lat today).1 (inferRaw dp q lat today).2 + 1 > 31) ∧
    (max (inferRaw dp q lat today).1 (inferRaw dp q lat today).2 -
        min (inferRaw dp q lat today).1 (inferRaw dp q lat today).2 + 1 > 31 →
      (inferTimeWindow dp q lat today).end_date <
        max (inferRaw dp q lat today).1 (inferRaw dp q lat today).2) := by
  have he : inferTimeWindow dp q lat today =
      postProcess today (inferRaw dp q lat today).1 (inferRaw dp q lat today).2
        (if hasTimeHint q then "hourly" else "daily") := rfl
  rw [he, postProcess_start, postProcess_end, postProcess_note]
  refine ⟨by omega, by omega, rfl, ?_, by omega⟩
  split_ifs with hc
  · exact iff_of_true (by decide) hc
  · exact iff_of_false (fun hcon => hcon rfl) hc

/-- Claim C5 (code bug): on a Sunday reference date, `_last_weekend`
returns the Saturday-Sunday pair ending on the reference date itself, not
the most recently completed weekend strictly before it; 2024-07-14 is a
Sunday and the returned window of the `last weekend` rule ends on that
very day, contradicting the docstring `fully in the past`. -/
theorem last_weekend_sunday_bug (dp : String → Option Nat) (lat : ℚ) :
    weekday (toOrdinal 2024 7 14) = 6 ∧
    lastWeekend (toOrdinal 2024 7 14) =
      (toOrdinal 2024 7 13, toOrdinal 2024 7 14) ∧
    (inferTimeWindow dp "last weekend" lat (toOrdinal 2024 7 14)).end_date =
      toOrdinal 2024 7 14 := by
  refine ⟨by decide, by decide, ?_⟩
  have hraw : inferRaw dp "last weekend" lat (toOrdinal 2024 7 14) =
      (toOrdinal 2024 7 13, toOrdinal 2024 7 14) := rfl
  show (postProcess (toOrdinal 2024 7 14)
      (inferRaw dp "last weekend" lat (toOrdinal 2024 7 14)).1
      (inferRaw dp "last weekend" lat (toOrdinal 2024 7 14)).2
      (if hasTimeHint "last weekend" then "hourly" else "daily")).end_date =
    toOrdinal 2024 7 14
  rw [hraw]
  rfl

/-- Claim C6 counterexample: for the query `spring 2023` with latitude 0,
`infer_time_window` does not return the full meteorological window
Mar 1 - May 31: the 31-day clamp pulls the returned end date in to
Mar 31, while the raw resolved window is indeed Mar 1 - May 31. -/
theorem season_return_cex :
    (inferTimeWindow (fun _ => none) "spring 2023" 0 800000).start_date =
      toOrdinal 2023 3 1 ∧
    (inferTimeWindow (fun _ => none) "spring 2023" 0 800000).end_date =
      toOrdinal 2023 3 31 ∧
    toOrdinal 2023 3 31 ≠ toOrdinal 2023 5 31 ∧
    inferRaw (fun _ => none) "spring 2023" 0 800000 =
      (toOrdinal 2023 3 1, toOrdinal 2023 5 31) := by
  have hraw : inferRaw (fun _ => none) "spring 2023" 0 800000 =
      (toOrdinal 2023 3 1, toOrdinal 2023 5 31) := rfl
  have hw : inferTimeWindow (fun _ => none) "spring 2023" 0 800000 =
      postProcess 800000 (toOrdinal 2023 3 1) (toOrdinal 2023 5 31)
        (if hasTimeHint "spring 2023" then "hourly" else "daily") := by
    show postProcess 800000
        (inferRaw (fun _ => none) "spring 2023" 0 800000).1
        (inferRaw (fun _ => none) "spring 2023" 0 800000).2
        (if hasTimeHint "spring 2023" then "hourly" else "daily") = _
    rw [hraw]
  rw [hw]
  exact ⟨rfl, rfl, by decide, hraw⟩

/-- Claim C6 amended: the season rule resolves the fixed meteorological
windows (northern-hemisphere tables for a missing or non-negative
latitude, the window of the season six months away for a negative
latitude); the returned window is this raw window only after the 31-day
clamp of the post-processing. -/
theorem season_window_tables (sea : String) (yr : Nat) (lat : ℚ)
    (h : sea ∈ ["spring", "summer", "autumn", "fall", "winter"]) :
    (0 ≤ lat → seasonWindow sea yr lat = nhSeasonWindow sea yr) ∧
    (lat < 0 → seasonWindow sea yr lat = nhSeasonWindow (oppositeSeason sea) yr) := by
  constructor
  · intro hlat
    have hb : decide (0 ≤ lat) = true := decide_eq_true hlat
    fin_cases h <;> simp only [seasonWindow, hb] <;> rfl
  · intro hlat
    have hb : decide (0 ≤ lat) = false := decide_eq_false (not_le.mpr hlat)
    fin_cases h <;> simp only [seasonWindow, hb] <;> rfl

/-- Claim C6 witness: the amended theorem applied to winter 2021 at a
southern latitude. -/
theorem season_window_tables_applied :
    seasonWindow "winter" 2021 (-30) = nhSeasonWindow (oppositeSeason "winter") 2021 :=
  (season_window_tables "winter" 2021 (-30) (by decide)).2 (by decide)

/-- Claim C9: the query `monsoon 2023` resolves the raw window
2023-06-01 .. 2023-09-30 for every latitude, and after the 31-day clamp
`infer_time_window` returns 2023-06-01 .. 2023-07-01 with a truncation
note present. -/
theorem monsoon_2023_window (dp : String → Option Nat) (lat : ℚ) (today : Nat) :
    inferRaw dp "monsoon 2023" lat today =
      (toOrdinal 2023 6 1, toOrdinal 2023 9 30) ∧
    (inferTimeWindow dp "monsoon 2023" lat today).start_date =
      toOrdinal 2023 6 1 ∧
    (inferTimeWindow dp "monsoon 2023" lat today).end_date =
      toOrdinal 2023 7 1 ∧
    (inferTimeWindow dp "monsoon 2023" lat today).note ≠ "" := by
  have hraw : inferRaw dp "monsoon 2023" lat today =
      (toOrdinal 2023 6 1, toOrdinal 2023 9 30) := rfl
  have hw : inferTimeWindow dp "monsoon 2023" lat today =
      postProcess today (toOrdinal 2023 6 1) (toOrdinal 2023 9 30)
        (if hasTimeHint "monsoon 2023" then "hourly" else "daily") := by
    show postProcess today
        (inferRaw dp "monsoon 2023" lat today).1
        (inferRaw dp "monsoon 2023" lat today).2
        (if hasTimeHint "monsoon 2023" then "hourly" else "daily") = _
    rw [hraw]
  rw [hw, postProcess_start, postProcess_end, postProcess_note]
  refine ⟨hraw, by decide, by decide, ?_⟩
  rw [if_pos (by decide)]
  decide

theorem mem_dedupSeen (x : String) (l : List String) : ∀ (seen : List String),
    x ∈ dedupSeen seen l ↔ x ∈ l ∧ x ∉ seen := by
  induction l with
  | nil => intro seen; simp [dedupSeen]
  | cons p rest ih =>
      intro seen
      by_cases hp : p ∈ seen
      · rw [dedupSeen, if_pos hp, ih]
        constructor
        · rintro ⟨hx, hs⟩; exact ⟨List.mem_cons_of_mem p hx, hs⟩
        · rintro ⟨hor, hs⟩
          rcases List.mem_cons.mp hor with hxp | hx
          · exact absurd (hxp ▸ hp) hs
          · exact ⟨hx, hs⟩
      · rw [dedupSeen, if_neg hp]
        by_cases hxp : x = p
        · subst hxp
          simp [hp]
        · rw [List.mem_cons]
          constructor
          · rintro (h | h)
            · exact absurd h hxp
            · have := (ih (p :: seen)).mp h
              exact ⟨List.mem_cons_of_mem p this.1,
                fun hs => this.2 (List.mem_cons_of_mem p hs)⟩
          · rintro ⟨hor, hs⟩
            rcases List.mem_cons.mp hor with h | h
            · exact absurd h hxp
            · refine Or.inr ((ih (p :: seen)).mpr ⟨h, ?_⟩)
              intro hc
              rcases List.mem_cons.mp hc with h2 | h2
              · exact hxp h2
              · exact hs h2

theorem mem_dedupKeepFirst (x : String) (l : List String) :
    x ∈ dedupKeepFirst l ↔ x ∈ l := by
  rw [dedupKeepFirst, mem_dedupSeen]
  simp

theorem dedupKeepFirst_ne_nil (l : List String) (h : l ≠ []) :
    dedupKeepFirst l ≠ [] := by
  cases l with
  | nil => exact absurd rfl h
  | cons p rest =>
      rw [dedupKeepFirst, dedupSeen]
      simp

theorem stepVar_fields_ne_nil (k v : String) : (stepVar k v).2.1 ≠ [] := by
  unfold stepVar
  split_ifs <;> simp_all <;> split_ifs <;> simp_all

theorem mapVarsGo_out_ne_nil (k : String) (vs : List String) (h : vs ≠ []) :
    (mapVarsGo k vs).2.1 ≠ [] := by
  cases vs with
  | nil => exact absurd rfl h
  | cons v rest =>
      show (stepVar k v).2.1 ++ (mapVarsGo (stepVar k v).1 rest).2.1 ≠ []
      intro hc
      rw [List.append_eq_nil] at hc
      exact stepVar_fields_ne_nil k v hc.1

theorem stepVar_unknown (k v : String) (h : configGet v = none) :
    (stepVar k v).2.1 = [v] := by
  have hd : dailyOf v = [] := by simp [dailyOf, h]
  have hh : hourlyOf v = [] := by simp [hourlyOf, h]
  unfold stepVar
  split_ifs <;> simp_all

theorem mapVarsGo_mem_unknown (vs : List String) (v : String)
    (hv : v ∈ vs) (h : configGet v = none) : ∀ (k : String),
    v ∈ (mapVarsGo k vs).2.1 := by
  induction vs with
  | nil => cases hv
  | cons u rest ih =>
      intro k
      show v ∈ (stepVar k u).2.1 ++ (mapVarsGo (stepVar k u).1 rest).2.1
      rcases List.mem_cons.mp hv with hvu | hvr
      · subst hvu
        rw [stepVar_unknown k v h]
        exact List.mem_append_left _ (List.mem_singleton_self v)
      · exact List.mem_append_right _ (ih hvr (stepVar k u).1)

/-- Claim C10: for every non-empty canonical-variable list, `_map_vars`
keeps the loop result (non-empty fields, loop warnings only, no
safe-default substitution); an identifier absent from `VARIABLE_CONFIG`
is passed through verbatim into the field list; the safe-default branch
fires exactly on the empty input list. -/
theorem map_vars_total (vs : List String) (g : String) (h : vs ≠ []) :
    (mapVars vs g).2.1 ≠ [] ∧
    mapVars vs g =
      ((mapVarsGo (if g = "hourly" ∨ g = "daily" ∨ g = "minutely_15" ∨
          g = "current" then g else "daily") vs).1,
        dedupKeepFirst (mapVarsGo (if g = "hourly" ∨ g = "daily" ∨
          g = "minutely_15" ∨ g = "current" then g else "daily") vs).2.1,
        (mapVarsGo (if g = "hourly" ∨ g = "daily" ∨ g = "minutely_15" ∨
          g = "current" then g else "daily") vs).2.2) ∧
    (∀ v ∈ vs, configGet v = none → v ∈ (mapVars vs g).2.1) ∧
    mapVars [] g = ("hourly", ["temperature_2m"], [defaultVarsWarn]) := by
  have hne := mapVarsGo_out_ne_nil
    (if g = "hourly" ∨ g = "daily" ∨ g = "minutely_15" ∨ g = "current"
      then g else "daily") vs h
  have hd := dedupKeepFirst_ne_nil _ hne
  have hmain : mapVars vs g =
      ((mapVarsGo (if g = "hourly" ∨ g = "daily" ∨ g = "minutely_15" ∨
          g = "current" then g else "daily") vs).1,
        dedupKeepFirst (mapVarsGo (if g = "hourly" ∨ g = "daily" ∨
          g = "minutely_15" ∨ g = "current" then g else "daily") vs).2.1,
        (mapVarsGo (if g = "hourly" ∨ g = "daily" ∨ g = "minutely_15" ∨
          g = "current" then g else "daily") vs).2.2) := by
    unfold mapVars
    rw [if_neg hd]
  refine ⟨by rw [hmain]; exact hd, hmain, ?_, by simp [mapVars, mapVarsGo, dedupKeepFirst, dedupSeen]⟩
  intro v hv hnone
  rw [hmain]
  exact (mem_dedupKeepFirst v _).mpr (mapVarsGo_mem_unknown vs v hv hnone _)

/-- Claim C10 witness: a singleton list holding an identifier that is not
in the configuration. -/
theorem map_vars_total_applied :
    (mapVars ["bogus_var"] "daily").2.1 ≠ [] ∧
    "bogus_var" ∈ (mapVars ["bogus_var"] "daily").2.1 :=
  ⟨(map_vars_total ["bogus_var"] "daily" (by decide)).1,
    (map_vars_total ["bogus_var"] "daily" (by decide)).2.2.1 "bogus_var"
      (by decide) (by decide)⟩

theorem mapVars_go_eq (vs : List String) (g key : String)
    (hkey : (if g = "hourly" ∨ g = "daily" ∨ g = "minutely_15" ∨ g = "current"
      then g else "daily") = key)
    (h : (mapVarsGo key vs).2.1 ≠ []) :
    mapVars vs g = ((mapVarsGo key vs).1, dedupKeepFirst (mapVarsGo key vs).2.1,
      (mapVarsGo key vs).2.2) := by
  unfold mapVars
  rw [hkey, if_neg (dedupKeepFirst_ne_nil _ h)]

theorem mapVarsGo_daily_pre (pre rest : List String)
    (hpre : ∀ u ∈ pre, dailyOf u ≠ []) :
    mapVarsGo "daily" (pre ++ rest) =
      ((mapVarsGo "daily" rest).1,
        (pre.map dailyOf).flatten ++ (mapVarsGo "daily" rest).2.1,
        (mapVarsGo "daily" rest).2.2) := by
  induction pre with
  | nil => simp
  | cons u pre' ih =>
      have hu : dailyOf u ≠ [] := hpre u (List.mem_cons_self u pre')
      have hstep : stepVar "daily" u = ("daily", dailyOf u, []) := by
        unfold stepVar
        rw [if_pos rfl, if_neg hu]
      show ((mapVarsGo (stepVar "daily" u).1 (pre' ++ rest)).1,
        (stepVar "daily" u).2.1 ++ (mapVarsGo (stepVar "daily" u).1 (pre' ++ rest)).2.1,
        (stepVar "daily" u).2.2 ++ (mapVarsGo (stepVar "daily" u).1 (pre' ++ rest)).2.2) = _
      rw [hstep]
      dsimp only
      rw [ih (fun x hx => hpre x (List.mem_cons_of_mem u hx))]
      simp [List.append_assoc]

theorem mapVarsGo_hourly_all (post : List String)
    (hpost : ∀ u ∈ post, hourlyOf u ≠ []) :
    mapVarsGo "hourly" post = ("hourly", (post.map hourlyOf).flatten, []) := by
  induction post with
  | nil => simp [mapVarsGo]
  | cons u rest ih =>
      have hu : hourlyOf u ≠ [] := hpost u (List.mem_cons_self u rest)
      have hstep : stepVar "hourly" u = ("hourly", hourlyOf u, []) := by
        unfold stepVar
        rw [if_neg (by decide : ¬("hourly" : String) = "daily"), if_pos rfl,
          if_neg (fun hc => hu hc.1), if_neg hu]
      show ((mapVarsGo (stepVar "hourly" u).1 rest).1,
        (stepVar "hourly" u).2.1 ++ (mapVarsGo (stepVar "hourly" u).1 rest).2.1,
        (stepVar "hourly" u).2.2 ++ (mapVarsGo (stepVar "hourly" u).1 rest).2.2) = _
      rw [hstep]
      dsimp only
      rw [ih (fun x hx => hpost x (List.mem_cons_of_mem u hx))]
      simp

/-- Claim C3 counterexample: at daily cadence with the batch
`[precipitation, dew_point_2m]`, the offending variable switches the
cadence to hourly, but the variable processed before it keeps its daily
field `precipitation_sum`; its hourly field `precipitation` is not
substituted, so the switch is not applied to every variable of the
batch. -/
theorem map_vars_daily_fallback_cex :
    mapVars ["precipitation", "dew_point_2m"] "daily" =
      ("hourly", ["precipitation_sum", "dew_point_2m"],
        [dailyFallbackWarn "dew_point_2m"]) ∧
    "precipitation" ∉ (mapVars ["precipitation", "dew_point_2m"] "daily").2.1 ∧
    hourlyOf "precipitation" = ["precipitation"] := by decide

/-- Claim C3 amended: at daily cadence, when the variables before the
offending one all have daily fields, the offending variable has no daily
but some hourly fields, and the variables after it all have hourly
fields, then the effective cadence of the batch switches to hourly, the
variables before the switch keep their daily fields while the offending
variable and all later ones contribute hourly fields, and exactly one
warning is emitted naming the offending variable. -/
theorem map_vars_daily_fallback (pre : List String) (v : String)
    (post : List String)
    (hpre : ∀ u ∈ pre, dailyOf u ≠ [])
    (hv1 : dailyOf v = []) (hv2 : hourlyOf v ≠ [])
    (hpost : ∀ u ∈ post, hourlyOf u ≠ []) :
    mapVars (pre ++ v :: post) "daily" =
      ("hourly",
        dedupKeepFirst ((pre.map dailyOf).flatten ++ hourlyOf v ++
          (post.map hourlyOf).flatten),
        [dailyFallbackWarn v]) := by
  have hstepv : stepVar "daily" v = ("hourly", hourlyOf v, [dailyFallbackWarn v]) := by
    unfold stepVar
    rw [if_pos rfl, if_pos hv1]
    dsimp only
    rw [if_neg hv2, if_neg hv2]
  have hcons : mapVarsGo "daily" (v :: post) =
      ("hourly", hourlyOf v ++ (post.map hourlyOf).flatten, [dailyFallbackWarn v]) := by
    show ((mapVarsGo (stepVar "daily" v).1 post).1,
      (stepVar "daily" v).2.1 ++ (mapVarsGo (stepVar "daily" v).1 post).2.1,
      (stepVar "daily" v).2.2 ++ (mapVarsGo (stepVar "daily" v).1 post).2.2) = _
    rw [hstepv]
    dsimp only
    rw [mapVarsGo_hourly_all post hpost]
    simp
  have hgo : mapVarsGo "daily" (pre ++ v :: post) =
      ("hourly", (pre.map dailyOf).flatten ++ (hourlyOf v ++ (post.map hourlyOf).flatten),
        [dailyFallbackWarn v]) := by
    rw [mapVarsGo_daily_pre pre (v :: post) hpre, hcons]
  have hne : (mapVarsGo "daily" (pre ++ v :: post)).2.1 ≠ [] := by
    rw [hgo]
    simp [List.append_eq_nil, hv2]
  rw [mapVars_go_eq (pre ++ v :: post) "daily" "daily" (by decide) hne, hgo]
  simp [List.append_assoc]

/-- Claim C3 witness: the amended theorem applied to the batch
`[precipitation, dew_point_2m, pressure_msl]` at daily cadence. -/
theorem map_vars_daily_fallback_applied :
    mapVars (["precipitation"] ++ "dew_point_2m" :: ["pressure_msl"]) "daily" =
      ("hourly",
        dedupKeepFirst (((["precipitation"] : List String).map dailyOf).flatten ++
          hourlyOf "dew_point_2m" ++
          ((["pressure_msl"] : List String).map hourlyOf).flatten),
        [dailyFallbackWarn "dew_point_2m"]) :=
  map_vars_daily_fallback ["precipitation"] "dew_point_2m" ["pressure_msl"]
    (by decide) (by decide) (by decide) (by decide)

theorem range'_glue (a b c : Nat) (hab : a ≤ b) (hbc : b ≤ c + 1) :
    List.range' a (b - a) ++ List.range' b (c + 1 - b) =
      List.range' a (c + 1 - a) := by
  have h1 : a + (b - a) = b := by omega
  have h2 : (c + 1 - b) + (b - a) = c + 1 - a := by omega
  calc List.range' a (b - a) ++ List.range' b (c + 1 - b)
      = List.range' a (b - a) ++ List.range' (a + (b - a)) (c + 1 - b) := by rw [h1]
    _ = List.range' a ((c + 1 - b) + (b - a)) := List.range'_append_1 a (b - a) (c + 1 - b)
    _ = List.range' a (c + 1 - a) := by rw [h2]

/-- Claim C2 counterexample: the mixed window with `start = today`
(today = 1000, window 1000..1020) produces no historical call at all —
only the horizon-clamped forecast call — so the two claimed calls are not
both issued and the union of issued days (1000..1016) is not the window
(1000..1020). -/
theorem mixed_split_cex :
    planCalls 1000 1000 1020 "mixed" = [⟨"forecast", 1000, 1016⟩] ∧
    ((planCalls 1000 1000 1020 "mixed").map callDays).flatten ≠
      List.range' 1000 21 ∧
    (1000 ≤ 1000 ∧ 1000 ≤ 1020) := by decide

/-- Claim C2 amended: for a mixed window (`start ≤ today ≤ end`) the
defensive recomputation agrees with the forced mixed mode; the historical
call (covering `start .. today - 1`) is issued exactly when
`start < today`, while the forecast call, covering
`today .. min(end, today + 16)` after the horizon clamp, is always
issued; when both are issued the historical end plus one day is the
forecast start; the issued days form the contiguous duplicate-free range
`start .. min(end, today + 16)`, which equals the original window exactly
when `end ≤ today + 16`. -/
theorem mixed_split_routes (today s e : Nat) (h1 : s ≤ today) (h2 : today ≤ e) :
    planCalls today s e "" = planCalls today s e "mixed" ∧
    planCalls today s e "mixed" =
      (if s < today then [⟨"archive", s, today - 1⟩] else []) ++
        [⟨"forecast", today, min e (today + 16)⟩] ∧
    (s < today → (today - 1) + 1 = today) ∧
    ((planCalls today s e "mixed").map callDays).flatten =
      List.range' s (min e (today + 16) + 1 - s) ∧
    ((planCalls today s e "mixed").map callDays).flatten.Nodup ∧
    (e ≤ today + 16 →
      ((planCalls today s e "mixed").map callDays).flatten =
        List.range' s (e + 1 - s)) := by
  have hfc : mkForecastCall (max today s) e today =
      ⟨"forecast", today, min e (today + 16)⟩ := by
    unfold mkForecastCall clampForecastRange
    rw [Nat.max_eq_left h1]
    split_ifs with hx <;> dsimp only <;>
      simp only [Call.mk.injEq, true_and] <;> omega
  have harch : min e (today - 1) = today - 1 := by omega
  have htm : planCalls today s e "" = planCalls today s e "mixed" := by
    unfold planCalls
    rw [if_pos (rfl : ("" : String) = ""), if_neg (by omega : ¬ e < today),
      if_neg (by omega : ¬ s > today), if_neg (by decide : ¬("mixed" : String) = "")]
  have hstruct : planCalls today s e "mixed" =
      (if s < today then [⟨"archive", s, today - 1⟩] else []) ++
        [⟨"forecast", today, min e (today + 16)⟩] := by
    unfold planCalls
    rw [if_neg (by decide : ¬("mixed" : String) = ""),
      if_neg (by decide : ¬("mixed" : String) = "hindcast"),
      if_neg (by decide : ¬("mixed" : String) = "forecast"),
      if_pos (by omega : e ≥ today), hfc, harch]
  have hjoin : ((planCalls today s e "mixed").map callDays).flatten =
      List.range' s (min e (today + 16) + 1 - s) := by
    rw [hstruct]
    by_cases hs : s < today
    · rw [if_pos hs]
      have hA : callDays ⟨"archive", s, today - 1⟩ = List.range' s (today - s) := by
        unfold callDays
        dsimp only
        congr 1
        omega
      have hF : callDays ⟨"forecast", today, min e (today + 16)⟩ =
          List.range' today (min e (today + 16) + 1 - today) := rfl
      have hglue := range'_glue s today (min e (today + 16)) (Nat.le_of_lt hs)
        (by omega)
      simp only [List.map_cons, List.map_nil, List.flatten_cons, List.flatten_nil,
        List.append_nil, List.cons_append, List.nil_append]
      rw [hA, hF, hglue]
    · rw [if_neg hs]
      have hse : s = today := by omega
      subst hse
      simp only [List.nil_append, List.map_cons, List.map_nil, List.flatten_cons,
        List.flatten_nil, List.append_nil]
      rfl
  refine ⟨htm, hstruct, fun _ => by omega, hjoin, ?_, ?_⟩
  · rw [hjoin]
    exact List.nodup_range' _ _
  · intro he
    rw [hjoin]
    congr 1
    omega

/-- Claim C2 witness: the amended routing applied to the mixed window
8..12 with today = 10. -/
theorem mixed_split_routes_applied :
    planCalls 10 8 12 "mixed" =
      (if 8 < 10 then [⟨"archive", 8, 9⟩] else []) ++
        [⟨"forecast", 10, min 12 26⟩] :=
  (mixed_split_routes 10 8 12 (by decide) (by decide)).2.1

theorem mkForecastCall_end_le (s e today : Nat) :
    (mkForecastCall s e today).end_date ≤ today + 16 := by
  unfold mkForecastCall clampForecastRange
  split_ifs <;> dsimp only <;> omega

theorem planCalls_mem_cases (today s e : Nat) (tm : String) (c : Call)
    (hc : c ∈ planCalls today s e tm) :
    c.endpoint = "archive" ∨ ∃ a b, c = mkForecastCall a b today := by
  unfold planCalls at hc
  set tmv := if tm = "" then
      (if e < today then "hindcast" else if s > today then "forecast" else "mixed")
    else tm with htmv
  by_cases h1 : tmv = "hindcast"
  · rw [if_pos h1] at hc
    simp at hc
    subst hc
    left
    rfl
  · rw [if_neg h1] at hc
    by_cases h2 : tmv = "forecast"
    · rw [if_pos h2] at hc
      simp at hc
      subst hc
      right
      exact ⟨s, e, rfl⟩
    · rw [if_neg h2] at hc
      rcases List.mem_append.mp hc with h | h
      · by_cases h3 : s < today
        · rw [if_pos h3] at h
          simp at h
          subst h
          left
          rfl
        · rw [if_neg h3] at h
          simp at h
      · by_cases h4 : e ≥ today
        · rw [if_pos h4] at h
          simp at h
          subst h
          right
          exact ⟨max today s, e, rfl⟩
        · rw [if_neg h4] at h
          simp at h

/-- Claim C4 counterexample: a forecast-routed fetch whose window end
(today + 20) exceeds the horizon is clamped to today + 16, yet the
returned plan carries no warning at all — the horizon clamp is silent. -/
theorem forecast_horizon_cex :
    fetchPlan 1000 1001 1020 ["temperature_2m"] "hourly" "forecast" "none" =
      ⟨[⟨"forecast", 1001, 1016⟩], "hourly", ["temperature_2m"], []⟩ ∧
    (1016 : Nat) < 1020 := by decide

/-- Claim C4 amended: the end date of every forecast-endpoint call issued
by `fetch_openmeteo` never exceeds today + 16, but shortening the range
records no warning: the warnings of the returned plan are exactly the
variable-mapping warnings, independent of the clamp. -/
theorem forecast_horizon_clamp (today s e : Nat) (vs : List String)
    (g tm th : String) :
    (∀ c ∈ (fetchPlan today s e vs g tm th).calls,
      c.endpoint = "forecast" → c.end_date ≤ today + 16) ∧
    (fetchPlan today s e vs g tm th).warnings =
      (mapVars vs (pickGranularity g th)).2.2 := by
  refine ⟨?_, rfl⟩
  intro c hc hfc
  have hcalls : (fetchPlan today s e vs g tm th).calls = planCalls today s e tm := rfl
  rw [hcalls] at hc
  rcases planCalls_mem_cases today s e tm c hc with harch | ⟨a, b, rfl⟩
  · rw [harch] at hfc
    exact absurd hfc (by decide)
  · exact mkForecastCall_end_le a b today

/-- Claim C7 counterexample: a query with no variable cue resolves to
exactly `temperature_2m`, but the dict returned by `pick_variables`
carries no assumption marker of any kind — its keys are fixed and none
flags the defaulted choice. -/
theorem pick_default_cex :
    pickVariablesVars "hello" = ["temperature_2m"] ∧
    pickVariablesResultKeys =
      ["variables", "granularity", "time_hint", "stat_intent", "endpoint_hint",
        "few_shot_examples"] ∧
    "assumption" ∉ pickVariablesResultKeys := by decide

/-- Claim C7 amended: for every query in which no synonym and no canonical
name matches, `pick_variables` resolves exactly `[temperature_2m]` (the
coarse fallback cues are all synonyms, hence also absent), but the result
is not marked as an assumption: no key of the returned dict carries such
a marker. -/
theorem pick_default_temperature (q : String)
    (h : matchedVars (strLower q) = []) :
    pickVariablesVars q = ["temperature_2m"] ∧
    "assumption" ∉ pickVariablesResultKeys := by
  refine ⟨?_, by decide⟩
  have hfil : variableConfig.filter (entryMatches (strLower q)) = [] :=
    List.map_eq_nil_iff.mp h
  have hall := List.filter_eq_nil_iff.mp hfil
  have hprec := hall ("precipitation",
    ⟨["precipitation"], ["precipitation_sum"], "daily",
      ["rain", "rainfall", "precip", "wet"]⟩) (by decide)
  have hhum := hall ("relative_humidity_2m",
    ⟨["relative_humidity_2m"], ["relative_humidity_2m_mean"], "hourly",
      ["humidity", "humid"]⟩) (by decide)
  have huv := hall ("uv_index",
    ⟨[], ["uv_index_max", "uv_index_clear_sky_max"], "daily",
      ["uv", "uv index", "sunburn"]⟩) (by decide)
  have hwind := hall ("wind_speed_10m",
    ⟨["wind_speed_10m"], ["wind_speed_10m_max", "wind_gusts_10m_max"], "hourly",
      ["wind", "wind speed", "breeze"]⟩) (by decide)
  simp only [entryMatches, List.any_cons, List.any_nil, Bool.or_eq_true,
    not_or] at hprec hhum huv hwind
  obtain ⟨⟨hrain, hrainfall, hprecip, hwet, -⟩, -⟩ := hprec
  obtain ⟨⟨hhumidity, -, -⟩, -⟩ := hhum
  obtain ⟨⟨huv1, -, hsunburn, -⟩, -⟩ := huv
  obtain ⟨⟨hwind1, -, -, -⟩, -⟩ := hwind
  unfold pickVariablesVars
  dsimp only
  rw [h, if_pos rfl,
    if_neg (by rintro (hx | hx); exacts [hrain hx, hprecip hx]),
    if_neg hhumidity,
    if_neg (by rintro (hx | hx); exacts [huv1 hx, hsunburn hx]),
    if_neg hwind1]
  rfl

/-- Claim C7 witness: the amended theorem applied to the cue-free query
`hello`. -/
theorem pick_default_temperature_applied :
    pickVariablesVars "hello" = ["temperature_2m"] ∧
    "assumption" ∉ pickVariablesResultKeys :=
  pick_default_temperature "hello" (by decide)

theorem lookup_map_update (k : String) (a b : List (String × String)) :
    List.lookup k (a.map (fun p => (p.1, (List.lookup p.1 b).getD p.2))) =
      (List.lookup k a).map (fun v => (List.lookup k b).getD v) := by
  induction a with
  | nil => rfl
  | cons p a' ih =>
      obtain ⟨k1, v1⟩ := p
      by_cases hk : k = k1
      · subst hk
        simp [List.lookup_cons]
      · simp [List.lookup_cons, beq_false_of_ne hk, ih]

theorem lookup_filter_agree (k : String) (b : List (String × String))
    (P Q : String × String → Bool) (h : ∀ v, P (k, v) = Q (k, v)) :
    List.lookup k (b.filter P) = List.lookup k (b.filter Q) := by
  induction b with
  | nil => rfl
  | cons p b' ih =>
      obtain ⟨k1, v1⟩ := p
      by_cases hk : k = k1
      · subst hk
        have hPQ := h v1
        cases hQ : Q (k, v1)
        · rw [List.filter_cons, List.filter_cons, hQ, hPQ.trans hQ]
          simpa using ih
        · rw [List.filter_cons, List.filter_cons, hQ, hPQ.trans hQ]
          simp
      · rw [List.filter_cons, List.filter_cons]
        cases hP : P (k1, v1) <;> cases hQ : Q (k1, v1) <;>
          simp [List.lookup_cons, beq_false_of_ne hk, ih]

/-- Claim C8 counterexample: when both mixed-mode sub-results declare a
unit for the same field and the units disagree, the Python
`units.update(...)` sequence silently keeps the forecast value; the
historical degC is overwritten by degF with no inconsistency recorded —
the plan warnings stay empty for the same mixed fetch. -/
theorem units_merge_cex :
    mergedUnits [("temperature_2m", "°C")] [("temperature_2m", "°F")] =
      [("temperature_2m", "°F")] ∧
    List.lookup "temperature_2m"
        (mergedUnits [("temperature_2m", "°C")] [("temperature_2m", "°F")]) =
      some "°F" ∧
    some "°F" ≠ some "°C" ∧
    (fetchPlan 1000 998 1002 ["temperature_2m"] "hourly" "mixed" "none").warnings
      = [] := by decide

/-- Claim C8 amended: the unit merge is `dict.update`: a unit declared by
only one sub-result is preserved (so agreeing declarations are kept), but
when both declare a unit for a field the forecast declaration always wins
(even when they disagree), and no inconsistency is reported. -/
theorem units_merge_lookup (a b : List (String × String)) (k : String) :
    List.lookup k (mergedUnits a b) =
      if (List.lookup k b).isSome then List.lookup k b
      else List.lookup k a := by
  have hnil : dictUpdate [] a = a := by
    unfold dictUpdate
    simp [List.filter_eq_self]
  show List.lookup k (dictUpdate (dictUpdate [] a) b) = _
  rw [hnil]
  unfold dictUpdate
  rw [List.lookup_append, lookup_map_update]
  cases hla : List.lookup k a with
  | none =>
      have hagree := lookup_filter_agree k b
        (fun p => (List.lookup p.1 a).isNone) (fun _ => true)
        (fun v => by simp [hla])
      rw [hagree, List.filter_eq_self.mpr (fun _ _ => rfl)]
      cases List.lookup k b <;> simp
  | some u =>
      cases hlb : List.lookup k b <;> simp [Option.or, hlb]

end WxER
